import Mathlib

/-
Verification of the nuScenes label-grid rasterizer
(scripts/create_dataset/create_dataset_from_nusc.py).

Shallow embedding conventions:
* float32 values are modelled as exact rationals (ℚ);
* the transcendental library calls (math.sin, math.cos, math.atan and the
  square root inside np.linalg.norm) are abstracted as an oracle record of
  functions ℚ → ℚ, since floating-point trig is not exact arithmetic; claims
  about the real trig identities themselves are stated over ℝ separately;
* the dense (size, size, 8) numpy array is a function ℤ → ℤ → Fin 8 → ℚ,
  in-place channel assignment becomes a functional update of all 8 channels
  of one cell (the source writes the 8 channels of a cell together);
* `for i in range(a, b)` is a left fold over the integer list [a, b).
-/

/-- A 3D point (the x, y, z rows of the point cloud / box corner arrays). -/
structure Vec3 where
  x : ℚ
  y : ℚ
  z : ℚ
deriving DecidableEq

def sub3 (a b : Vec3) : Vec3 := ⟨a.x - b.x, a.y - b.y, a.z - b.z⟩

def add3 (a b : Vec3) : Vec3 := ⟨a.x + b.x, a.y + b.y, a.z + b.z⟩

def dot3 (a b : Vec3) : ℚ := a.x * b.x + a.y * b.y + a.z * b.z

def scale3 (c : ℚ) (a : Vec3) : Vec3 := ⟨c * a.x, c * a.y, c * a.z⟩

def dot2 (a b : ℚ × ℚ) : ℚ := a.1 * b.1 + a.2 * b.2

def sub2 (a b : ℚ × ℚ) : ℚ × ℚ := (a.1 - b.1, a.2 - b.2)

/-- The inner function points_in_box of generate_out_feature, specialised to a
single query point (the source computes one boolean per point; the mask is
recovered by mapping this over the point list).  Reference corner p1 is
corners[:,0], the three axis endpoints are corners[:,4], corners[:,1],
corners[:,3]. -/
def points_in_box (corners : Fin 8 → Vec3) (pt : Vec3) : Bool :=
  decide ((0 ≤ dot3 (sub3 (corners 4) (corners 0)) (sub3 pt (corners 0)) ∧
           dot3 (sub3 (corners 4) (corners 0)) (sub3 pt (corners 0)) ≤
             dot3 (sub3 (corners 4) (corners 0)) (sub3 (corners 4) (corners 0))) ∧
          (0 ≤ dot3 (sub3 (corners 1) (corners 0)) (sub3 pt (corners 0)) ∧
           dot3 (sub3 (corners 1) (corners 0)) (sub3 pt (corners 0)) ≤
             dot3 (sub3 (corners 1) (corners 0)) (sub3 (corners 1) (corners 0))) ∧
          (0 ≤ dot3 (sub3 (corners 3) (corners 0)) (sub3 pt (corners 0)) ∧
           dot3 (sub3 (corners 3) (corners 0)) (sub3 pt (corners 0)) ≤
             dot3 (sub3 (corners 3) (corners 0)) (sub3 (corners 3) (corners 0))))

/-- The inner function points_in_box2d of generate_out_feature ("2D version of
points_in_box"): p1 = box2d[0], p_x = box2d[1], p_y = box2d[3]; the (unused in
the source body) corners argument is dropped. -/
def points_in_box2d (box2d : Fin 4 → ℚ × ℚ) (pt : ℚ × ℚ) : Bool :=
  decide ((0 ≤ dot2 (sub2 (box2d 1) (box2d 0)) (sub2 pt (box2d 0)) ∧
           dot2 (sub2 (box2d 1) (box2d 0)) (sub2 pt (box2d 0)) ≤
             dot2 (sub2 (box2d 1) (box2d 0)) (sub2 (box2d 1) (box2d 0))) ∧
          (0 ≤ dot2 (sub2 (box2d 3) (box2d 0)) (sub2 pt (box2d 0)) ∧
           dot2 (sub2 (box2d 3) (box2d 0)) (sub2 pt (box2d 0)) ≤
             dot2 (sub2 (box2d 3) (box2d 0)) (sub2 (box2d 3) (box2d 0))))

/-- F2I: world coordinate to feature-map index, int(np.floor((orig - val) * scale)). -/
def F2I (val orig scale : ℚ) : ℤ := ⌊(orig - val) * scale⌋

/-- Pixel2pc: feature-map index to the world coordinate of the cell center,
out_range - (in_pixel + 0.5) * (2.0 * out_range / in_size). -/
def Pixel2pc (in_pixel in_size out_range : ℚ) : ℚ :=
  out_range - (in_pixel + 1/2) * (2 * out_range / in_size)

/-- Python range(a, b) over integers: the list a, a+1, ..., b-1 (empty if b ≤ a). -/
def intRange (a b : ℤ) : List ℤ :=
  (List.range (b - a).toNat).map fun (k : ℕ) => a + (k : ℤ)

/-- The (size, size, 8) float32 output array. -/
abbrev Grid := ℤ → ℤ → Fin 8 → ℚ

/-- Assignment of the 8 channels of cell (i, j). -/
def writeCell (g : Grid) (i j : ℤ) (vals : Fin 8 → ℚ) : Grid :=
  fun i1 j1 ch => if i1 = i ∧ j1 = j then vals ch else g i1 j1 ch

def zeroGrid : Grid := fun _ _ _ => 0

/-- Oracle for the transcendental library calls used by the script:
math.sin, math.cos, math.atan and the square root of np.linalg.norm. -/
structure TrigOracle where
  msin : ℚ → ℚ
  mcos : ℚ → ℚ
  matan : ℚ → ℚ
  msqrt : ℚ → ℚ

def idOracle : TrigOracle := ⟨id, id, id, id⟩

/-- normalized_yaw = math.atan(math.sin(yaw) / math.cos(yaw)) (line 412). -/
def normalized_yaw (t : TrigOracle) (yaw : ℚ) : ℚ :=
  t.matan (t.msin yaw / t.mcos yaw)

/-- inv_res = 0.5 * size / 70. (line 372). -/
def inv_res (size : ℕ) : ℚ := 1/2 * (size : ℚ) / 70

/-- max_length = abs(2 * res) where res = 1.0 / inv_res (lines 373-374). -/
def max_length (size : ℕ) : ℚ := |2 * (1 / inv_res size)|

/-- The per-axis clamping scale of lines 401-410: max_length / |d| once the
distance d from the box 2D center to the cell center exceeds max_length,
otherwise 1. -/
def axisScale (size : ℕ) (d : ℚ) : ℚ :=
  if max_length size < |d| then max_length size / |d| else 1

/-- box2d[:, 0].min() (line 297). -/
def box2d_left (box2d : Fin 4 → ℚ × ℚ) : ℚ :=
  min (min (box2d 0).1 (box2d 1).1) (min (box2d 2).1 (box2d 3).1)

/-- box2d[:, 0].max() (line 298). -/
def box2d_right (box2d : Fin 4 → ℚ × ℚ) : ℚ :=
  max (max (box2d 0).1 (box2d 1).1) (max (box2d 2).1 (box2d 3).1)

/-- box2d[:, 1].max() (line 299). -/
def box2d_top (box2d : Fin 4 → ℚ × ℚ) : ℚ :=
  max (max (box2d 0).2 (box2d 1).2) (max (box2d 2).2 (box2d 3).2)

/-- box2d[:, 1].min() (line 300). -/
def box2d_bottom (box2d : Fin 4 → ℚ × ℚ) : ℚ :=
  min (min (box2d 0).2 (box2d 1).2) (min (box2d 2).2 (box2d 3).2)

def search_area_left_idx (size : ℕ) (box2d : Fin 4 → ℚ × ℚ) : ℤ :=
  F2I (box2d_left box2d) 70 (inv_res size)

def search_area_right_idx (size : ℕ) (box2d : Fin 4 → ℚ × ℚ) : ℤ :=
  F2I (box2d_right box2d) 70 (inv_res size)

def search_area_top_idx (size : ℕ) (box2d : Fin 4 → ℚ × ℚ) : ℤ :=
  F2I (box2d_top box2d) 70 (inv_res size)

def search_area_bottom_idx (size : ℕ) (box2d : Fin 4 → ℚ × ℚ) : ℤ :=
  F2I (box2d_bottom box2d) 70 (inv_res size)

/-- The 8 channel values written at cell (i, j) by lines 419-428. -/
def cellVals (t : TrigOracle) (size : ℕ) (box2d_center : ℚ × ℚ)
    (height_pt : ℚ) (label : ℤ) (yaw : ℚ) (i j : ℤ) : Fin 8 → ℚ :=
  fun ch =>
    match ch with
    | ⟨0, _⟩ => 1
    | ⟨1, _⟩ => (box2d_center.1 - Pixel2pc (i : ℚ) (size : ℚ) 70) * (-1) *
        min (axisScale size (box2d_center.1 - Pixel2pc (i : ℚ) (size : ℚ) 70))
            (axisScale size (box2d_center.2 - Pixel2pc (j : ℚ) (size : ℚ) 70))
    | ⟨2, _⟩ => (box2d_center.2 - Pixel2pc (j : ℚ) (size : ℚ) 70) * (-1) *
        min (axisScale size (box2d_center.1 - Pixel2pc (i : ℚ) (size : ℚ) 70))
            (axisScale size (box2d_center.2 - Pixel2pc (j : ℚ) (size : ℚ) 70))
    | ⟨3, _⟩ => 1
    | ⟨4, _⟩ => (label : ℚ)
    | ⟨5, _⟩ => t.mcos (normalized_yaw t yaw * 2)
    | ⟨6, _⟩ => t.msin (normalized_yaw t yaw * 2)
    | ⟨7, _⟩ => height_pt
    | ⟨n + 8, h⟩ => absurd h (by omega)

/-- Body of the doubly nested cell loop (lines 397-428): bounds check,
2D membership test on the cell center, conditional write of the 8 channels. -/
def cellBody (t : TrigOracle) (size : ℕ) (box2d : Fin 4 → ℚ × ℚ)
    (box2d_center : ℚ × ℚ) (height_pt : ℚ) (label : ℤ) (yaw : ℚ)
    (i j : ℤ) (g : Grid) : Grid :=
  if 0 ≤ i ∧ i < (size : ℤ) ∧ 0 ≤ j ∧ j < (size : ℤ) then
    if points_in_box2d box2d (Pixel2pc (i : ℚ) (size : ℚ) 70, Pixel2pc (j : ℚ) (size : ℚ) 70) then
      writeCell g i j (cellVals t size box2d_center height_pt label yaw i j)
    else g
  else g

/-- generate_out_feature (lines 260-430).  The grid_centers parameter of the
source is omitted: the source body never reads it.  pc_points models the
x, y, z rows of the (4, n) point array (the intensity row is dropped by the
pc_points[:3, :] slice at the only use site). -/
def generate_out_feature (t : TrigOracle) (size : ℕ) (box_corners : Fin 8 → Vec3)
    (box2d : Fin 4 → ℚ × ℚ) (box2d_center : ℚ × ℚ) (pc_points : List Vec3)
    (height_pt : ℚ) (label : ℤ) (yaw : ℚ) (out_feature : Grid) : Grid :=
  if pc_points.countP (points_in_box box_corners) < 4 ∧ label = 0 then out_feature
  else if pc_points.countP (points_in_box box_corners) < 4 ∧ label = 1 then out_feature
  else if pc_points.countP (points_in_box box_corners) < 4 ∧ label = 2 then out_feature
  else if pc_points.countP (points_in_box box_corners) < 4 ∧ label = 3 then out_feature
  else if pc_points.countP (points_in_box box_corners) < 4 ∧ label = 4 then out_feature
  else
    (intRange (search_area_right_idx size box2d - 1) (search_area_left_idx size box2d + 1)).foldl
      (fun g1 i =>
        (intRange (search_area_top_idx size box2d - 1) (search_area_bottom_idx size box2d + 1)).foldl
          (fun g2 j => cellBody t size box2d box2d_center height_pt label yaw i j g2) g1)
      out_feature

/-- One annotated box as the per-box loop of create_dataset sees it:
the 8 corner columns of box.corners(), the category string box.name already
tokenized on "." (the source only ever reads box.name through
box.name.split('.')), and the yaw of box.orientation.yaw_pitch_roll. -/
structure NuscBox where
  corners : Fin 8 → Vec3
  name : List String
  yaw : ℚ

/-- The label computation of create_dataset lines 185-210, over the tokens of
box.name.split('.').  none models the `else: continue` branch (top-level
category neither "vehicle" nor "human"); note that a "vehicle" box whose
second token matches no rule keeps the initial label 0 and is NOT skipped. -/
def boxLabel (name : List String) : Option ℤ :=
  if name.getD 0 "" = "vehicle" then
    some (if name.getD 1 "" = "car" then 1
      else if name.getD 1 "" = "bus" then 2
      else if name.getD 1 "" = "truck" then 2
      else if name.getD 1 "" = "construction" then 2
      else if name.getD 1 "" = "emergency" then 2
      else if name.getD 1 "" = "trailer" then 2
      else if name.getD 1 "" = "bicycle" then 3
      else if name.getD 1 "" = "motorcycle" then 3
      else 0)
  else if name.getD 0 "" = "human" then some 4
  else none

/-- box2d = corners2d.T[[2, 3, 7, 6]] (lines 214-215): the x, y coordinates of
corners 2, 3, 7, 6 in that order. -/
def box2dOf (corners : Fin 8 → Vec3) : Fin 4 → ℚ × ℚ :=
  fun k =>
    match k with
    | ⟨0, _⟩ => ((corners 2).x, (corners 2).y)
    | ⟨1, _⟩ => ((corners 3).x, (corners 3).y)
    | ⟨2, _⟩ => ((corners 7).x, (corners 7).y)
    | ⟨3, _⟩ => ((corners 6).x, (corners 6).y)
    | ⟨n + 4, h⟩ => absurd h (by omega)

/-- box2d_center = box2d.mean(axis=0) (line 216). -/
def box2dCenterOf (box2d : Fin 4 → ℚ × ℚ) : ℚ × ℚ :=
  (((box2d 0).1 + (box2d 1).1 + (box2d 2).1 + (box2d 3).1) / 4,
   ((box2d 0).2 + (box2d 1).2 + (box2d 2).2 + (box2d 3).2) / 4)

/-- height_pt = np.linalg.norm(box.corners().T[0] - box.corners().T[3])
(lines 211-212), with the square root taken through the oracle. -/
def heightPtOf (t : TrigOracle) (corners : Fin 8 → Vec3) : ℚ :=
  t.msqrt (dot3 (sub3 (corners 0) (corners 3)) (sub3 (corners 0) (corners 3)))

/-- The per-box work of the loop body of create_dataset (lines 185-221):
classify, possibly `continue`, otherwise compute the footprint data and call
generate_out_feature on the running grid. -/
def processBox (t : TrigOracle) (size : ℕ) (pc : List Vec3) (g : Grid)
    (box : NuscBox) : Grid :=
  match boxLabel box.name with
  | none => g
  | some label =>
      generate_out_feature t size box.corners (box2dOf box.corners)
        (box2dCenterOf (box2dOf box.corners)) pc
        (heightPtOf t box.corners) label box.yaw g

/-- One frame of create_dataset: out_feature = np.zeros((size, size, 8)) then
the box loop (lines 179-221). -/
def processFrame (t : TrigOracle) (size : ℕ) (pc : List Vec3)
    (boxes : List NuscBox) : Grid :=
  boxes.foldl (processBox t size pc) zeroGrid

/-- The square-grid configuration check of create_dataset lines 128-132. -/
def checkSize (width height : ℕ) : Except String ℕ :=
  if width = height then Except.ok width
  else Except.error "Currently only supported if width and height are equal"

/-- create_dataset reduced to the core pipeline: the configuration check runs
first; only if it passes is any frame processed. -/
def create_dataset_frames (t : TrigOracle) (width height : ℕ)
    (frames : List (List Vec3 × List NuscBox)) : Except String (List Grid) :=
  match checkSize width height with
  | Except.error e => Except.error e
  | Except.ok size => Except.ok (frames.map fun fr => processFrame t size fr.1 fr.2)

/-- The LabelMapper classify table exactly as the specification states it
(section 4.2), over the tokens of the category string: a spec-side
definition, to be compared with the source-side boxLabel; class id 0 for
every category matching no row of the table. -/
def classifySpec (name : List String) : ℤ :=
  if name.getD 0 "" = "vehicle" ∧ name.getD 1 "" = "car" then 1
  else if name.getD 0 "" = "vehicle" ∧
      (name.getD 1 "" = "bus" ∨ name.getD 1 "" = "truck" ∨
       name.getD 1 "" = "construction" ∨ name.getD 1 "" = "emergency" ∨
       name.getD 1 "" = "trailer") then 2
  else if name.getD 0 "" = "vehicle" ∧
      (name.getD 1 "" = "bicycle" ∨ name.getD 1 "" = "motorcycle") then 3
  else if name.getD 0 "" = "human" then 4
  else 0

/-! Concrete data used by witnesses and counterexamples: an axis-aligned box
whose footprint is the square [7.5, 27.5] x [7.5, 27.5], z in [-1, 1], with
four lidar points inside it, on a 4-cell grid (cell centers at +-52.5, +-17.5;
the cell (1, 1) center (17.5, 17.5) lies inside the footprint). -/

def cornersW : Fin 8 → Vec3 :=
  fun k =>
    match k with
    | ⟨0, _⟩ => ⟨15/2, 15/2, -1⟩
    | ⟨1, _⟩ => ⟨15/2, 55/2, -1⟩
    | ⟨2, _⟩ => ⟨55/2, 15/2, 1⟩
    | ⟨3, _⟩ => ⟨15/2, 15/2, 1⟩
    | ⟨4, _⟩ => ⟨55/2, 15/2, -1⟩
    | ⟨5, _⟩ => ⟨55/2, 55/2, -1⟩
    | ⟨6, _⟩ => ⟨55/2, 55/2, 1⟩
    | ⟨7, _⟩ => ⟨15/2, 55/2, 1⟩
    | ⟨n + 8, h⟩ => absurd h (by omega)

def ptsW : List Vec3 := [⟨35/2, 35/2, 0⟩, ⟨10, 10, 0⟩, ⟨20, 20, 0⟩, ⟨15, 15, 1/2⟩]

def boxW : NuscBox := ⟨cornersW, ["vehicle", "unknown"], 0⟩

def boxCar : NuscBox := ⟨cornersW, ["vehicle", "car"], 0⟩

def boxBarrier : NuscBox := ⟨cornersW, ["movable_object", "barrier"], 0⟩

/-! List-range helper lemmas for the integer loop ranges. -/

lemma intRange_mem {a b x : ℤ} : x ∈ intRange a b ↔ a ≤ x ∧ x < b := by
  unfold intRange
  constructor
  · intro hx
    obtain ⟨k, hk, rfl⟩ := List.mem_map.1 hx
    have hk2 := List.mem_range.1 hk
    omega
  · intro h
    refine List.mem_map.2 ⟨(x - a).toNat, List.mem_range.2 ?_, ?_⟩ <;> omega

lemma intRange_nil {a b : ℤ} (h : b ≤ a) : intRange a b = [] := by
  have h0 : (b - a).toNat = 0 := by omega
  simp [intRange, h0]

lemma intRange_succ {a b : ℤ} (h : a ≤ b) :
    intRange a (b + 1) = intRange a b ++ [b] := by
  have h1 : (b + 1 - a).toNat = (b - a).toNat + 1 := by omega
  rw [intRange, intRange, h1, List.range_succ, List.map_append]
  congr 1
  simp
  omega

lemma intRange_append {a c b : ℤ} (h1 : a ≤ c) (h2 : c ≤ b) :
    intRange a b = intRange a c ++ intRange c b := by
  obtain ⟨n, rfl⟩ : ∃ n : ℕ, b = c + n := ⟨(b - c).toNat, by omega⟩
  clear h2
  induction n with
  | zero => simp [intRange_nil le_rfl]
  | succ n ih =>
    have hcn : c ≤ c + (n : ℤ) := by omega
    have e1 : c + ((n + 1 : ℕ) : ℤ) = (c + (n : ℤ)) + 1 := by push_cast; ring
    rw [e1, intRange_succ (by omega), ih, intRange_succ hcn, List.append_assoc]

lemma intRange_single (i : ℤ) : intRange i (i + 1) = [i] := by
  rw [intRange_succ le_rfl, intRange_nil le_rfl]
  rfl

/-! Pointwise preservation lemmas for the grid writes. -/

lemma writeCell_same (g : Grid) (i j : ℤ) (vals : Fin 8 → ℚ) (ch : Fin 8) :
    writeCell g i j vals i j ch = vals ch := by
  simp [writeCell]

lemma writeCell_ne (g : Grid) (i j : ℤ) (vals : Fin 8 → ℚ) (i1 j1 : ℤ) (ch : Fin 8)
    (h : ¬(i1 = i ∧ j1 = j)) : writeCell g i j vals i1 j1 ch = g i1 j1 ch := by
  simp [writeCell, h]

lemma cellBody_preserve (t : TrigOracle) (size : ℕ) (box2d : Fin 4 → ℚ × ℚ)
    (c : ℚ × ℚ) (hpt : ℚ) (label : ℤ) (yaw : ℚ) (i j i1 j1 : ℤ) (ch : Fin 8) (g : Grid)
    (h : ¬(i = i1 ∧ j = j1) ∨
      ¬((0 ≤ i1 ∧ i1 < (size : ℤ) ∧ 0 ≤ j1 ∧ j1 < (size : ℤ)) ∧
        points_in_box2d box2d
          (Pixel2pc (i1 : ℚ) (size : ℚ) 70, Pixel2pc (j1 : ℚ) (size : ℚ) 70) = true)) :
    cellBody t size box2d c hpt label yaw i j g i1 j1 ch = g i1 j1 ch := by
  unfold cellBody
  split_ifs with hb hm
  · rcases h with h | h
    · exact writeCell_ne _ _ _ _ _ _ _ (by tauto)
    · rcases eq_or_ne i1 i with rfl | hne
      · rcases eq_or_ne j1 j with rfl | hne2
        · exact absurd ⟨hb, hm⟩ h
        · exact writeCell_ne _ _ _ _ _ _ _ (by tauto)
      · exact writeCell_ne _ _ _ _ _ _ _ (by tauto)
  · rfl
  · rfl

lemma cellBody_write (t : TrigOracle) (size : ℕ) (box2d : Fin 4 → ℚ × ℚ)
    (c : ℚ × ℚ) (hpt : ℚ) (label : ℤ) (yaw : ℚ) (i j : ℤ) (ch : Fin 8) (g : Grid)
    (hb : 0 ≤ i ∧ i < (size : ℤ) ∧ 0 ≤ j ∧ j < (size : ℤ))
    (hm : points_in_box2d box2d
      (Pixel2pc (i : ℚ) (size : ℚ) 70, Pixel2pc (j : ℚ) (size : ℚ) 70) = true) :
    cellBody t size box2d c hpt label yaw i j g i j ch
      = cellVals t size c hpt label yaw i j ch := by
  unfold cellBody
  rw [if_pos hb, if_pos hm, writeCell_same]

lemma foldl_grid_preserve {α : Type} (f : Grid → α → Grid) (l : List α)
    (i1 j1 : ℤ) (ch : Fin 8)
    (h : ∀ g a, a ∈ l → f g a i1 j1 ch = g i1 j1 ch) :
    ∀ g : Grid, (l.foldl f g) i1 j1 ch = g i1 j1 ch := by
  induction l with
  | nil => intro g; rfl
  | cons a l ih =>
    intro g
    rw [List.foldl_cons, ih (fun g b hb => h g b (List.mem_cons_of_mem a hb)),
      h g a (List.mem_cons_self a l)]

/-- C2: for every box, point cloud and prior grid state, if fewer than 4
points pass the 3D membership test against the box corners, then
generate_out_feature returns the output grid completely unchanged, for every
class id 0 through 4 (the five redundant skip branches of lines 382-391
together cover exactly these labels). -/
theorem sparse_box_leaves_grid_unchanged (t : TrigOracle) (size : ℕ)
    (box_corners : Fin 8 → Vec3) (box2d : Fin 4 → ℚ × ℚ) (box2d_center : ℚ × ℚ)
    (pc_points : List Vec3) (height_pt : ℚ) (label : ℤ) (yaw : ℚ) (out_feature : Grid)
    (hl0 : 0 ≤ label) (hl4 : label ≤ 4)
    (hc : pc_points.countP (points_in_box box_corners) < 4) :
    generate_out_feature t size box_corners box2d box2d_center pc_points
      height_pt label yaw out_feature = out_feature := by
  unfold generate_out_feature
  interval_cases label <;> simp [hc]

/-- C2 witness: an empty point cloud (0 points inside) with label 1 leaves the
zero grid unchanged. -/
theorem sparse_box_leaves_grid_unchanged_witness :
    (0 : ℤ) ≤ 1 ∧ (1 : ℤ) ≤ 4 ∧ (List.countP (points_in_box cornersW) [] < 4) ∧
      generate_out_feature idOracle 4 cornersW (box2dOf cornersW)
        (box2dCenterOf (box2dOf cornersW)) [] 0 1 0 zeroGrid = zeroGrid := by
  refine ⟨by norm_num, by norm_num, by simp [List.countP_nil], ?_⟩
  exact sparse_box_leaves_grid_unchanged idOracle 4 cornersW (box2dOf cornersW)
    (box2dCenterOf (box2dOf cornersW)) [] 0 1 0 zeroGrid (by norm_num) (by norm_num)
    (by simp [List.countP_nil])

/-- C9: create_dataset rejects a non-square grid with a fatal error before any
frame is processed (the error result carries no grids), and accepts a square
grid, processing every frame with size equal to the common value. -/
theorem square_grid_check (t : TrigOracle) (width height : ℕ)
    (frames : List (List Vec3 × List NuscBox)) :
    (width ≠ height →
      create_dataset_frames t width height frames =
        Except.error "Currently only supported if width and height are equal")
    ∧ (width = height →
      create_dataset_frames t width height frames =
        Except.ok (frames.map fun fr => processFrame t width fr.1 fr.2)) := by
  constructor
  · intro h
    simp [create_dataset_frames, checkSize, h]
  · intro h
    simp [create_dataset_frames, checkSize, h]

/-- C9 witness: width 2 and height 3 give the fatal error; width 2 and
height 2 process the (empty) frame list. -/
theorem square_grid_check_witness :
    create_dataset_frames idOracle 2 3 [] =
      Except.error "Currently only supported if width and height are equal"
    ∧ create_dataset_frames idOracle 2 2 [] = Except.ok [] := by
  constructor
  · exact (square_grid_check idOracle 2 3 []).1 (by norm_num)
  · have h := (square_grid_check idOracle 2 2 []).2 rfl
    simpa using h

/-- C4 counterexample: the claim puts the clamping threshold at
2 * (R / size) = 2 with R = 70 and size = 70, and so predicts scale
2 * (70/70) / 3 for a distance of 3; the code's threshold is
max_length = 2 * (2 * 70 / size) = 4, so the actual scale at distance 3 is 1. -/
theorem offset_clamp_threshold_counterexample :
    axisScale 70 3 = 1 ∧ 2 * ((70 : ℚ) / 70) < |(3 : ℚ)| ∧
      (1 : ℚ) ≠ 2 * ((70 : ℚ) / 70) / |(3 : ℚ)| := by
  norm_num [axisScale, max_length, inv_res]

/-- C4 amended: the per-axis clamping threshold equals 2 * (2R / size) (two
full cell widths, R = 70 fixed in the source): beyond it the scale is
threshold / distance, otherwise 1. -/
theorem offset_clamp_threshold_amended (size : ℕ) (hsz : 0 < size) :
    max_length size = 2 * (2 * 70 / (size : ℚ))
    ∧ (∀ d : ℚ, 2 * (2 * 70 / (size : ℚ)) < |d| →
        axisScale size d = 2 * (2 * 70 / (size : ℚ)) / |d|)
    ∧ (∀ d : ℚ, |d| ≤ 2 * (2 * 70 / (size : ℚ)) → axisScale size d = 1) := by
  have hs : (0 : ℚ) < (size : ℚ) := by exact_mod_cast hsz
  have hne : (size : ℚ) ≠ 0 := ne_of_gt hs
  have hinv : (0 : ℚ) < 1/2 * (size : ℚ) / 70 := div_pos (by linarith) (by norm_num)
  have hml : max_length size = 2 * (2 * 70 / (size : ℚ)) := by
    unfold max_length inv_res
    rw [abs_of_pos (mul_pos (by norm_num) (one_div_pos.mpr hinv))]
    field_simp
  refine ⟨hml, ?_, ?_⟩
  · intro d hd
    unfold axisScale
    rw [hml, if_pos hd]
  · intro d hd
    unfold axisScale
    rw [hml, if_neg (not_lt.2 hd)]

/-- C4 amended witness: at size 70 the threshold is 2 * (2 * 70 / 70) = 4. -/
theorem offset_clamp_threshold_amended_witness :
    0 < 70 ∧ max_length 70 = 2 * (2 * 70 / (70 : ℚ)) :=
  ⟨by norm_num, (offset_clamp_threshold_amended 70 (by norm_num)).1⟩

/-- C5: composing F2I (worldToCell, scale 0.5 * N / R) with Pixel2pc
(cellToWorld) moves a coordinate in (-R, R] by at most one cell width 2R/N,
and F2I is monotonically decreasing in the world coordinate. -/
theorem grid_roundtrip_and_monotone (R : ℚ) (N : ℕ) (hR : 0 < R) (hN : 0 < N) :
    (∀ v : ℚ, -R < v → v ≤ R →
      |Pixel2pc ((F2I v R (1/2 * (N : ℚ) / R) : ℤ) : ℚ) (N : ℚ) R - v| ≤ 2 * R / (N : ℚ))
    ∧ ∀ v w : ℚ, v ≤ w →
      F2I w R (1/2 * (N : ℚ) / R) ≤ F2I v R (1/2 * (N : ℚ) / R) := by
  have hNQ : (0 : ℚ) < (N : ℚ) := by exact_mod_cast hN
  have hs : (0 : ℚ) < 1/2 * (N : ℚ) / R := div_pos (by linarith) hR
  constructor
  · intro v hv1 hv2
    have hc : F2I v R (1/2 * (N : ℚ) / R) = ⌊(R - v) * (1/2 * (N : ℚ) / R)⌋ := rfl
    rw [hc]
    have hfl : ((⌊(R - v) * (1/2 * (N : ℚ) / R)⌋ : ℤ) : ℚ) ≤ (R - v) * (1/2 * (N : ℚ) / R) :=
      Int.floor_le _
    have hfu : (R - v) * (1/2 * (N : ℚ) / R) < (⌊(R - v) * (1/2 * (N : ℚ) / R)⌋ : ℚ) + 1 :=
      Int.lt_floor_add_one _
    set c : ℚ := ((⌊(R - v) * (1/2 * (N : ℚ) / R)⌋ : ℤ) : ℚ) with hcdef
    have hq : (0 : ℚ) < 2 * R / (N : ℚ) := div_pos (by linarith) hNQ
    have hkey : (1/2 * (N : ℚ) / R) * (2 * R / (N : ℚ)) = 1 := by
      field_simp
    have hmm : ((R - v) * (1/2 * (N : ℚ) / R)) * (2 * R / (N : ℚ)) = R - v := by
      rw [mul_assoc, hkey, mul_one]
    have he : Pixel2pc c (N : ℚ) R - v
        = ((R - v) * (1/2 * (N : ℚ) / R) - (c + 1/2)) * (2 * R / (N : ℚ)) := by
      calc Pixel2pc c (N : ℚ) R - v
          = (R - v) - (c + 1/2) * (2 * R / (N : ℚ)) := by unfold Pixel2pc; ring
        _ = ((R - v) * (1/2 * (N : ℚ) / R) - (c + 1/2)) * (2 * R / (N : ℚ)) := by
            rw [sub_mul, hmm]
    rw [he, abs_mul, abs_of_pos hq]
    have habs : |(R - v) * (1/2 * (N : ℚ) / R) - (c + 1/2)| ≤ 1 := by
      rw [abs_le]
      constructor <;> [linarith; linarith]
    calc |(R - v) * (1/2 * (N : ℚ) / R) - (c + 1/2)| * (2 * R / (N : ℚ))
        ≤ 1 * (2 * R / (N : ℚ)) := mul_le_mul_of_nonneg_right habs (le_of_lt hq)
      _ = 2 * R / (N : ℚ) := one_mul _
  · intro v w hvw
    unfold F2I
    exact Int.floor_le_floor (mul_le_mul_of_nonneg_right (by linarith) (le_of_lt hs))

/-- C5 witness: R = 70, N = 4, v = 1: the round trip lands within one cell
width 35 of v. -/
theorem grid_roundtrip_and_monotone_witness :
    (0 : ℚ) < 70 ∧ 0 < 4 ∧
      |Pixel2pc ((F2I 1 70 (1/2 * ((4 : ℕ) : ℚ) / 70) : ℤ) : ℚ) ((4 : ℕ) : ℚ) 70 - 1|
        ≤ 2 * 70 / ((4 : ℕ) : ℚ) := by
  refine ⟨by norm_num, by norm_num, ?_⟩
  exact (grid_roundtrip_and_monotone 70 4 (by norm_num) (by norm_num)).1 1
    (by norm_num) (by norm_num)

/-- normalized_yaw of line 412 over the real numbers:
atan(sin(yaw) / cos(yaw)). -/
noncomputable def normalizedYawR (yaw : ℝ) : ℝ :=
  Real.arctan (Real.sin yaw / Real.cos yaw)

/-- The doubled-angle heading pair written to channels 5 and 6 (lines 426-427)
over the real numbers: (cos(normalized_yaw * 2), sin(normalized_yaw * 2)). -/
noncomputable def encodeHeading (yaw : ℝ) : ℝ × ℝ :=
  (Real.cos (normalizedYawR yaw * 2), Real.sin (normalizedYawR yaw * 2))

/-- C7: the doubled-angle heading encoding is invariant under a half turn:
for every yaw with cos(yaw) and cos(yaw + pi) nonzero, encodeHeading gives the
same pair at yaw and at yaw + pi (in exact real arithmetic). -/
theorem heading_encoding_half_turn_invariant (yaw : ℝ)
    (h1 : Real.cos yaw ≠ 0) (h2 : Real.cos (yaw + Real.pi) ≠ 0) :
    encodeHeading (yaw + Real.pi) = encodeHeading yaw := by
  have hsin : Real.sin (yaw + Real.pi) = -Real.sin yaw := by
    rw [Real.sin_add, Real.sin_pi, Real.cos_pi]
    ring
  have hcos : Real.cos (yaw + Real.pi) = -Real.cos yaw := by
    rw [Real.cos_add, Real.sin_pi, Real.cos_pi]
    ring
  have hn : normalizedYawR (yaw + Real.pi) = normalizedYawR yaw := by
    unfold normalizedYawR
    rw [hsin, hcos, neg_div_neg_eq]
  unfold encodeHeading
  rw [hn]

/-- C7 witness: at yaw = 0 both cosines are nonzero and the encodings at 0
and 0 + pi agree. -/
theorem heading_encoding_half_turn_invariant_witness :
    Real.cos 0 ≠ 0 ∧ Real.cos (0 + Real.pi) ≠ 0 ∧
      encodeHeading (0 + Real.pi) = encodeHeading 0 := by
  have h1 : Real.cos 0 ≠ 0 := by norm_num
  have h2 : Real.cos (0 + Real.pi) ≠ 0 := by
    rw [zero_add, Real.cos_pi]
    norm_num
  exact ⟨h1, h2, heading_encoding_half_turn_invariant 0 h1 h2⟩

lemma generate_out_feature_fold (t : TrigOracle) (size : ℕ)
    (box_corners : Fin 8 → Vec3) (box2d : Fin 4 → ℚ × ℚ) (box2d_center : ℚ × ℚ)
    (pc_points : List Vec3) (height_pt : ℚ) (label : ℤ) (yaw : ℚ) (out_feature : Grid)
    (hc : ¬ pc_points.countP (points_in_box box_corners) < 4) :
    generate_out_feature t size box_corners box2d box2d_center pc_points
      height_pt label yaw out_feature =
    (intRange (search_area_right_idx size box2d - 1) (search_area_left_idx size box2d + 1)).foldl
      (fun g1 i =>
        (intRange (search_area_top_idx size box2d - 1) (search_area_bottom_idx size box2d + 1)).foldl
          (fun g2 j => cellBody t size box2d box2d_center height_pt label yaw i j g2) g1)
      out_feature := by
  unfold generate_out_feature
  simp [hc]

lemma foldl_cell_write_inner (t : TrigOracle) (size : ℕ) (box2d : Fin 4 → ℚ × ℚ)
    (c : ℚ × ℚ) (hpt : ℚ) (label : ℤ) (yaw : ℚ) (i C D j : ℤ) (ch : Fin 8)
    (hC : C ≤ j) (hD : j < D)
    (hb : 0 ≤ i ∧ i < (size : ℤ) ∧ 0 ≤ j ∧ j < (size : ℤ))
    (hm : points_in_box2d box2d
      (Pixel2pc (i : ℚ) (size : ℚ) 70, Pixel2pc (j : ℚ) (size : ℚ) 70) = true)
    (g : Grid) :
    ((intRange C D).foldl
      (fun g2 j1 => cellBody t size box2d c hpt label yaw i j1 g2) g) i j ch
      = cellVals t size c hpt label yaw i j ch := by
  have e : intRange C D = (intRange C j ++ [j]) ++ intRange (j + 1) D := by
    rw [← intRange_succ hC, ← intRange_append (by omega) (by omega)]
  rw [e, List.foldl_append, List.foldl_append, List.foldl_cons, List.foldl_nil]
  rw [foldl_grid_preserve _ _ i j ch (fun g2 j1 hj1 => by
    apply cellBody_preserve
    left
    rintro ⟨-, rfl⟩
    have hm2 := intRange_mem.1 hj1
    omega)]
  exact cellBody_write t size box2d c hpt label yaw i j ch _ hb hm

lemma fold2_write (t : TrigOracle) (size : ℕ) (box2d : Fin 4 → ℚ × ℚ)
    (c : ℚ × ℚ) (hpt : ℚ) (label : ℤ) (yaw : ℚ) (A B C D i j : ℤ) (ch : Fin 8)
    (hA : A ≤ i) (hB : i < B) (hC : C ≤ j) (hD : j < D)
    (hb : 0 ≤ i ∧ i < (size : ℤ) ∧ 0 ≤ j ∧ j < (size : ℤ))
    (hm : points_in_box2d box2d
      (Pixel2pc (i : ℚ) (size : ℚ) 70, Pixel2pc (j : ℚ) (size : ℚ) 70) = true)
    (g : Grid) :
    ((intRange A B).foldl
      (fun g1 i1 => (intRange C D).foldl
        (fun g2 j1 => cellBody t size box2d c hpt label yaw i1 j1 g2) g1) g) i j ch
      = cellVals t size c hpt label yaw i j ch := by
  have e : intRange A B = (intRange A i ++ [i]) ++ intRange (i + 1) B := by
    rw [← intRange_succ hA, ← intRange_append (by omega) (by omega)]
  rw [e, List.foldl_append, List.foldl_append, List.foldl_cons, List.foldl_nil]
  rw [foldl_grid_preserve _ _ i j ch (fun g1 i1 hi1 => by
    apply foldl_grid_preserve
    intro g2 j1 hj1
    apply cellBody_preserve
    left
    rintro ⟨rfl, rfl⟩
    have hm1 := intRange_mem.1 hi1
    omega)]
  exact foldl_cell_write_inner t size box2d c hpt label yaw i C D j ch hC hD hb hm _

/-- C8: rasterizing one box modifies only cells that are inside the computed
search rectangle, within bounds on both axes, and whose cell center passes the
2D membership test; every other cell keeps its prior value on all 8 channels
(out-of-range candidate cells are silently clipped by the bounds check). -/
theorem rasterize_untouched_cells (t : TrigOracle) (size : ℕ)
    (box_corners : Fin 8 → Vec3) (box2d : Fin 4 → ℚ × ℚ) (box2d_center : ℚ × ℚ)
    (pc_points : List Vec3) (height_pt : ℚ) (label : ℤ) (yaw : ℚ) (out_feature : Grid)
    (i j : ℤ) (ch : Fin 8)
    (h : ¬((search_area_right_idx size box2d - 1 ≤ i ∧
            i < search_area_left_idx size box2d + 1 ∧
            search_area_top_idx size box2d - 1 ≤ j ∧
            j < search_area_bottom_idx size box2d + 1) ∧
           (0 ≤ i ∧ i < (size : ℤ) ∧ 0 ≤ j ∧ j < (size : ℤ)) ∧
           points_in_box2d box2d
             (Pixel2pc (i : ℚ) (size : ℚ) 70, Pixel2pc (j : ℚ) (size : ℚ) 70) = true)) :
    generate_out_feature t size box_corners box2d box2d_center pc_points
      height_pt label yaw out_feature i j ch = out_feature i j ch := by
  unfold generate_out_feature
  split_ifs with h1 h2 h3 h4 h5
  any_goals rfl
  by_cases hbm : (0 ≤ i ∧ i < (size : ℤ) ∧ 0 ≤ j ∧ j < (size : ℤ)) ∧
      points_in_box2d box2d
        (Pixel2pc (i : ℚ) (size : ℚ) 70, Pixel2pc (j : ℚ) (size : ℚ) 70) = true
  · have hns : ¬(search_area_right_idx size box2d - 1 ≤ i ∧
        i < search_area_left_idx size box2d + 1 ∧
        search_area_top_idx size box2d - 1 ≤ j ∧
        j < search_area_bottom_idx size box2d + 1) := fun hs => h ⟨hs, hbm⟩
    apply foldl_grid_preserve
    intro g1 i1 hi1
    apply foldl_grid_preserve
    intro g2 j1 hj1
    apply cellBody_preserve
    left
    rintro ⟨rfl, rfl⟩
    have hm1 := intRange_mem.1 hi1
    have hm2 := intRange_mem.1 hj1
    exact hns ⟨by omega, by omega, by omega, by omega⟩
  · apply foldl_grid_preserve
    intro g1 i1 hi1
    apply foldl_grid_preserve
    intro g2 j1 hj1
    exact cellBody_preserve t size box2d box2d_center height_pt label yaw
      i1 j1 i j ch g2 (Or.inr hbm)

/-- C8 witness: for the concrete box, the cell (0, 0) (center (52.5, 52.5),
outside the footprint) keeps its prior value on channel 0. -/
theorem rasterize_untouched_cells_witness :
    ¬((search_area_right_idx 4 (box2dOf cornersW) - 1 ≤ 0 ∧
        (0 : ℤ) < search_area_left_idx 4 (box2dOf cornersW) + 1 ∧
        search_area_top_idx 4 (box2dOf cornersW) - 1 ≤ 0 ∧
        (0 : ℤ) < search_area_bottom_idx 4 (box2dOf cornersW) + 1) ∧
       ((0 : ℤ) ≤ 0 ∧ (0 : ℤ) < (4 : ℤ) ∧ (0 : ℤ) ≤ 0 ∧ (0 : ℤ) < (4 : ℤ)) ∧
       points_in_box2d (box2dOf cornersW)
         (Pixel2pc (0 : ℚ) (4 : ℚ) 70, Pixel2pc (0 : ℚ) (4 : ℚ) 70) = true) ∧
    generate_out_feature idOracle 4 cornersW (box2dOf cornersW)
      (box2dCenterOf (box2dOf cornersW)) ptsW 0 1 0 zeroGrid 0 0 0 = zeroGrid 0 0 0 := by
  have hmask : ¬(points_in_box2d (box2dOf cornersW)
      (Pixel2pc (0 : ℚ) (4 : ℚ) 70, Pixel2pc (0 : ℚ) (4 : ℚ) 70) = true) := by
    norm_num [points_in_box2d, box2dOf, cornersW, Pixel2pc, dot2, sub2]
  have h : ¬((search_area_right_idx 4 (box2dOf cornersW) - 1 ≤ 0 ∧
      (0 : ℤ) < search_area_left_idx 4 (box2dOf cornersW) + 1 ∧
      search_area_top_idx 4 (box2dOf cornersW) - 1 ≤ 0 ∧
      (0 : ℤ) < search_area_bottom_idx 4 (box2dOf cornersW) + 1) ∧
     ((0 : ℤ) ≤ 0 ∧ (0 : ℤ) < (4 : ℤ) ∧ (0 : ℤ) ≤ 0 ∧ (0 : ℤ) < (4 : ℤ)) ∧
     points_in_box2d (box2dOf cornersW)
       (Pixel2pc (0 : ℚ) (4 : ℚ) 70, Pixel2pc (0 : ℚ) (4 : ℚ) 70) = true) := by
    intro hcon
    exact hmask hcon.2.2
  refine ⟨h, ?_⟩
  exact rasterize_untouched_cells idOracle 4 cornersW (box2dOf cornersW)
    (box2dCenterOf (box2dOf cornersW)) ptsW 0 1 0 zeroGrid 0 0 0 h

/-- C3: for every in-bounds candidate cell (i, j) whose world-space center
passes the 2D membership test for the current (classified, non-sparse) box,
the rasterizer writes exactly these 8 channel values: 1, the clamped negated
x offset, the clamped negated y offset, 1, the class id, cos of twice the
normalized yaw, sin of twice the normalized yaw, and the box height (the
Euclidean distance between corner 0 and corner 3, taken in create_dataset
lines 211-212 via the square-root oracle). -/
theorem rasterized_cell_channel_values (t : TrigOracle) (size : ℕ) (pc : List Vec3)
    (g : Grid) (box : NuscBox) (label : ℤ) (i j : ℤ)
    (hlab : boxLabel box.name = some label)
    (hcount : ¬ pc.countP (points_in_box box.corners) < 4)
    (hs1 : search_area_right_idx size (box2dOf box.corners) - 1 ≤ i)
    (hs2 : i < search_area_left_idx size (box2dOf box.corners) + 1)
    (hs3 : search_area_top_idx size (box2dOf box.corners) - 1 ≤ j)
    (hs4 : j < search_area_bottom_idx size (box2dOf box.corners) + 1)
    (hb : 0 ≤ i ∧ i < (size : ℤ) ∧ 0 ≤ j ∧ j < (size : ℤ))
    (hm : points_in_box2d (box2dOf box.corners)
      (Pixel2pc (i : ℚ) (size : ℚ) 70, Pixel2pc (j : ℚ) (size : ℚ) 70) = true) :
    processBox t size pc g box i j 0 = 1 ∧
    processBox t size pc g box i j 1 =
      ((box2dCenterOf (box2dOf box.corners)).1 - Pixel2pc (i : ℚ) (size : ℚ) 70) * (-1) *
        min (axisScale size ((box2dCenterOf (box2dOf box.corners)).1 -
              Pixel2pc (i : ℚ) (size : ℚ) 70))
            (axisScale size ((box2dCenterOf (box2dOf box.corners)).2 -
              Pixel2pc (j : ℚ) (size : ℚ) 70)) ∧
    processBox t size pc g box i j 2 =
      ((box2dCenterOf (box2dOf box.corners)).2 - Pixel2pc (j : ℚ) (size : ℚ) 70) * (-1) *
        min (axisScale size ((box2dCenterOf (box2dOf box.corners)).1 -
              Pixel2pc (i : ℚ) (size : ℚ) 70))
            (axisScale size ((box2dCenterOf (box2dOf box.corners)).2 -
              Pixel2pc (j : ℚ) (size : ℚ) 70)) ∧
    processBox t size pc g box i j 3 = 1 ∧
    processBox t size pc g box i j 4 = (label : ℚ) ∧
    processBox t size pc g box i j 5 = t.mcos (normalized_yaw t box.yaw * 2) ∧
    processBox t size pc g box i j 6 = t.msin (normalized_yaw t box.yaw * 2) ∧
    processBox t size pc g box i j 7 =
      t.msqrt (dot3 (sub3 (box.corners 0) (box.corners 3))
        (sub3 (box.corners 0) (box.corners 3))) := by
  have hp : processBox t size pc g box =
      generate_out_feature t size box.corners (box2dOf box.corners)
        (box2dCenterOf (box2dOf box.corners)) pc (heightPtOf t box.corners)
        label box.yaw g := by
    unfold processBox
    rw [hlab]
  have key : ∀ ch : Fin 8, processBox t size pc g box i j ch =
      cellVals t size (box2dCenterOf (box2dOf box.corners)) (heightPtOf t box.corners)
        label box.yaw i j ch := by
    intro ch
    rw [hp, generate_out_feature_fold t size box.corners (box2dOf box.corners)
      (box2dCenterOf (box2dOf box.corners)) pc (heightPtOf t box.corners)
      label box.yaw g hcount]
    exact fold2_write t size (box2dOf box.corners) (box2dCenterOf (box2dOf box.corners))
      (heightPtOf t box.corners) label box.yaw _ _ _ _ i j ch hs1 hs2 hs3 hs4 hb hm g
  exact ⟨(key 0).trans rfl, (key 1).trans rfl, (key 2).trans rfl, (key 3).trans rfl,
    (key 4).trans rfl, (key 5).trans rfl, (key 6).trans rfl, (key 7).trans rfl⟩

/-- C3 witness: the concrete "vehicle.car" box rasterized on the 4-cell grid
writes channel 0 = 1 and channel 4 = 1 at the in-bounds, in-footprint cell
(1, 1). -/
theorem rasterized_cell_channel_values_witness :
    boxLabel boxCar.name = some 1 ∧
    ¬ ptsW.countP (points_in_box boxCar.corners) < 4 ∧
    (search_area_right_idx 4 (box2dOf boxCar.corners) - 1 ≤ 1 ∧
      (1 : ℤ) < search_area_left_idx 4 (box2dOf boxCar.corners) + 1 ∧
      search_area_top_idx 4 (box2dOf boxCar.corners) - 1 ≤ 1 ∧
      (1 : ℤ) < search_area_bottom_idx 4 (box2dOf boxCar.corners) + 1) ∧
    points_in_box2d (box2dOf boxCar.corners)
      (Pixel2pc (1 : ℚ) ((4 : ℕ) : ℚ) 70, Pixel2pc (1 : ℚ) ((4 : ℕ) : ℚ) 70) = true ∧
    processBox idOracle 4 ptsW zeroGrid boxCar 1 1 0 = 1 ∧
    processBox idOracle 4 ptsW zeroGrid boxCar 1 1 4 = ((1 : ℤ) : ℚ) := by
  have hlab : boxLabel boxCar.name = some 1 := by
    norm_num [boxLabel, boxCar]
  have hcount : ¬ ptsW.countP (points_in_box boxCar.corners) < 4 := by
    norm_num [ptsW, boxCar, List.countP, List.countP.go, points_in_box, cornersW,
      dot3, sub3]
  have hsr : search_area_right_idx 4 (box2dOf boxCar.corners) = 1 := by
    norm_num [search_area_right_idx, box2dOf, box2d_right, F2I, inv_res, boxCar, cornersW]
  have hsl : search_area_left_idx 4 (box2dOf boxCar.corners) = 1 := by
    norm_num [search_area_left_idx, box2dOf, box2d_left, F2I, inv_res, boxCar, cornersW]
  have hst : search_area_top_idx 4 (box2dOf boxCar.corners) = 1 := by
    norm_num [search_area_top_idx, box2dOf, box2d_top, F2I, inv_res, boxCar, cornersW]
  have hsb : search_area_bottom_idx 4 (box2dOf boxCar.corners) = 1 := by
    norm_num [search_area_bottom_idx, box2dOf, box2d_bottom, F2I, inv_res, boxCar, cornersW]
  have hsearch : search_area_right_idx 4 (box2dOf boxCar.corners) - 1 ≤ 1 ∧
      (1 : ℤ) < search_area_left_idx 4 (box2dOf boxCar.corners) + 1 ∧
      search_area_top_idx 4 (box2dOf boxCar.corners) - 1 ≤ 1 ∧
      (1 : ℤ) < search_area_bottom_idx 4 (box2dOf boxCar.corners) + 1 := by
    rw [hsr, hsl, hst, hsb]
    norm_num
  have hm : points_in_box2d (box2dOf boxCar.corners)
      (Pixel2pc (1 : ℚ) ((4 : ℕ) : ℚ) 70, Pixel2pc (1 : ℚ) ((4 : ℕ) : ℚ) 70) = true := by
    norm_num [points_in_box2d, box2dOf, boxCar, cornersW, Pixel2pc, dot2, sub2]
  have hb : (0 : ℤ) ≤ 1 ∧ (1 : ℤ) < ((4 : ℕ) : ℤ) ∧ (0 : ℤ) ≤ 1 ∧ (1 : ℤ) < ((4 : ℕ) : ℤ) := by
    norm_num
  have happ := rasterized_cell_channel_values idOracle 4 ptsW zeroGrid boxCar 1 1 1
    hlab hcount hsearch.1 hsearch.2.1 hsearch.2.2.1 hsearch.2.2.2 hb hm
  exact ⟨hlab, hcount, hsearch, hm, happ.1, happ.2.2.2.2.1⟩

/-- C1 counterexample: the box category ["vehicle", "unknown"] classifies to
class id 0 under the specification table, yet the rasterizer does NOT skip it:
the per-box label computation only hits `continue` when the top-level token is
neither "vehicle" nor "human", so this box keeps label 0, is rasterized, and
writes channel 0 = 1 (and channel 4 = 0) at cell (1, 1) of the zero grid. -/
theorem classify_zero_box_not_always_skipped :
    classifySpec boxW.name = 0 ∧
    processBox idOracle 4 ptsW zeroGrid boxW 1 1 0 ≠ zeroGrid 1 1 0 := by
  constructor
  · decide
  · have hlab : boxLabel boxW.name = some 0 := by decide
    have hcount : ¬ ptsW.countP (points_in_box boxW.corners) < 4 := by
      norm_num [ptsW, boxW, List.countP, List.countP.go, points_in_box, cornersW,
        dot3, sub3]
    have hsr : search_area_right_idx 4 (box2dOf boxW.corners) = 1 := by
      norm_num [search_area_right_idx, box2dOf, box2d_right, F2I, inv_res, boxW, cornersW]
    have hsl : search_area_left_idx 4 (box2dOf boxW.corners) = 1 := by
      norm_num [search_area_left_idx, box2dOf, box2d_left, F2I, inv_res, boxW, cornersW]
    have hst : search_area_top_idx 4 (box2dOf boxW.corners) = 1 := by
      norm_num [search_area_top_idx, box2dOf, box2d_top, F2I, inv_res, boxW, cornersW]
    have hsb : search_area_bottom_idx 4 (box2dOf boxW.corners) = 1 := by
      norm_num [search_area_bottom_idx, box2dOf, box2d_bottom, F2I, inv_res, boxW, cornersW]
    have hm : points_in_box2d (box2dOf boxW.corners)
        (Pixel2pc (1 : ℚ) ((4 : ℕ) : ℚ) 70, Pixel2pc (1 : ℚ) ((4 : ℕ) : ℚ) 70) = true := by
      norm_num [points_in_box2d, box2dOf, boxW, cornersW, Pixel2pc, dot2, sub2]
    have hp : processBox idOracle 4 ptsW zeroGrid boxW =
        generate_out_feature idOracle 4 boxW.corners (box2dOf boxW.corners)
          (box2dCenterOf (box2dOf boxW.corners)) ptsW (heightPtOf idOracle boxW.corners)
          0 boxW.yaw zeroGrid := by
      unfold processBox
      rw [hlab]
    have key : processBox idOracle 4 ptsW zeroGrid boxW 1 1 0 =
        cellVals idOracle 4 (box2dCenterOf (box2dOf boxW.corners))
          (heightPtOf idOracle boxW.corners) 0 boxW.yaw 1 1 0 := by
      rw [hp, generate_out_feature_fold idOracle 4 boxW.corners (box2dOf boxW.corners)
        (box2dCenterOf (box2dOf boxW.corners)) ptsW (heightPtOf idOracle boxW.corners)
        0 boxW.yaw zeroGrid hcount]
      exact fold2_write idOracle 4 (box2dOf boxW.corners) (box2dCenterOf (box2dOf boxW.corners))
        (heightPtOf idOracle boxW.corners) 0 boxW.yaw _ _ _ _ 1 1 0
        (by rw [hsr]; norm_num) (by rw [hsl]; norm_num)
        (by rw [hst]; norm_num) (by rw [hsb]; norm_num)
        (by norm_num) hm zeroGrid
    rw [key]
    norm_num [cellVals, zeroGrid]

/-- C1 amended: a box is skipped entirely (no grid cell written) when its
top-level category token is neither "vehicle" nor "human" — equivalently, when
it classifies to class id 0 AND its first token is not "vehicle".  A "vehicle"
box with an unmatched second token also classifies to 0 but is still
rasterized (with channel 4 written as 0), as the counterexample shows. -/
theorem unmatched_top_category_box_skipped (t : TrigOracle) (size : ℕ)
    (pc : List Vec3) (g : Grid) (box : NuscBox)
    (h0 : classifySpec box.name = 0)
    (hv : box.name.getD 0 "" ≠ "vehicle") :
    processBox t size pc g box = g := by
  have hh : box.name.getD 0 "" ≠ "human" := by
    intro hhum
    unfold classifySpec at h0
    rw [if_neg (fun hc => hv hc.1), if_neg (fun hc => hv hc.1),
      if_neg (fun hc => hv hc.1), if_pos hhum] at h0
    norm_num at h0
  have hb : boxLabel box.name = none := by
    unfold boxLabel
    rw [if_neg hv, if_neg hh]
  simp only [processBox, hb]

/-- C1 amended witness: the concrete ["movable_object", "barrier"] box
classifies to 0, its first token is not "vehicle", and it leaves the zero
grid unchanged. -/
theorem unmatched_top_category_box_skipped_witness :
    classifySpec boxBarrier.name = 0 ∧
    boxBarrier.name.getD 0 "" ≠ "vehicle" ∧
    processBox idOracle 4 ptsW zeroGrid boxBarrier = zeroGrid := by
  have h0 : classifySpec boxBarrier.name = 0 := by decide
  have hv : boxBarrier.name.getD 0 "" ≠ "vehicle" := by decide
  exact ⟨h0, hv, unmatched_top_category_box_skipped idOracle 4 ptsW zeroGrid boxBarrier h0 hv⟩

/-- Variant of cellBody with the division of line 412 made explicit: Python
float division raises ZeroDivisionError when math.cos(yaw) is exactly 0.0, and
normalized_yaw is evaluated for every in-bounds candidate cell, before the
membership test, so the error branch sits between the bounds check and the
mask test. -/
def cellBodyChecked (t : TrigOracle) (size : ℕ) (box2d : Fin 4 → ℚ × ℚ)
    (box2d_center : ℚ × ℚ) (height_pt : ℚ) (label : ℤ) (yaw : ℚ)
    (i j : ℤ) (g : Grid) : Option Grid :=
  if 0 ≤ i ∧ i < (size : ℤ) ∧ 0 ≤ j ∧ j < (size : ℤ) then
    if t.mcos yaw = 0 then none
    else if points_in_box2d box2d
        (Pixel2pc (i : ℚ) (size : ℚ) 70, Pixel2pc (j : ℚ) (size : ℚ) 70) then
      some (writeCell g i j (cellVals t size box2d_center height_pt label yaw i j))
    else some g
  else some g

/-- generate_out_feature with the per-cell division error propagated: none
models an uncaught ZeroDivisionError escaping the loop. -/
def generate_out_feature_checked (t : TrigOracle) (size : ℕ)
    (box_corners : Fin 8 → Vec3) (box2d : Fin 4 → ℚ × ℚ) (box2d_center : ℚ × ℚ)
    (pc_points : List Vec3) (height_pt : ℚ) (label : ℤ) (yaw : ℚ)
    (out_feature : Grid) : Option Grid :=
  if pc_points.countP (points_in_box box_corners) < 4 ∧ label = 0 then some out_feature
  else if pc_points.countP (points_in_box box_corners) < 4 ∧ label = 1 then some out_feature
  else if pc_points.countP (points_in_box box_corners) < 4 ∧ label = 2 then some out_feature
  else if pc_points.countP (points_in_box box_corners) < 4 ∧ label = 3 then some out_feature
  else if pc_points.countP (points_in_box box_corners) < 4 ∧ label = 4 then some out_feature
  else
    (intRange (search_area_right_idx size box2d - 1) (search_area_left_idx size box2d + 1)).foldl
      (fun og i => og.bind fun g1 =>
        (intRange (search_area_top_idx size box2d - 1) (search_area_bottom_idx size box2d + 1)).foldl
          (fun og2 j => og2.bind fun g2 =>
            cellBodyChecked t size box2d box2d_center height_pt label yaw i j g2)
          (some g1))
      (some out_feature)

lemma foldl_bind_some {α : Type} (f : Grid → α → Grid) (fC : Grid → α → Option Grid)
    (l : List α) (h : ∀ g a, a ∈ l → fC g a = some (f g a)) :
    ∀ g : Grid, l.foldl (fun og a => og.bind fun x => fC x a) (some g)
      = some (l.foldl f g) := by
  induction l with
  | nil => intro g; rfl
  | cons a l ih =>
    intro g
    rw [List.foldl_cons, List.foldl_cons]
    have h1 : (some g).bind (fun x => fC x a) = some (f g a) := by
      rw [Option.some_bind, h g a (List.mem_cons_self a l)]
    rw [h1]
    exact ih (fun g1 b hb => h g1 b (List.mem_cons_of_mem a hb)) (f g a)

/-- C10: the heading normalization divides by cos(yaw) unguarded once per
in-bounds candidate cell; under the precondition cos(yaw) ≠ 0 the division
error branch is unreachable and the checked rasterizer agrees with the total
embedding on every input. -/
theorem checked_rasterize_total_of_cos_nonzero (t : TrigOracle) (size : ℕ)
    (box_corners : Fin 8 → Vec3) (box2d : Fin 4 → ℚ × ℚ) (box2d_center : ℚ × ℚ)
    (pc_points : List Vec3) (height_pt : ℚ) (label : ℤ) (yaw : ℚ) (out_feature : Grid)
    (h : t.mcos yaw ≠ 0) :
    generate_out_feature_checked t size box_corners box2d box2d_center pc_points
      height_pt label yaw out_feature
    = some (generate_out_feature t size box_corners box2d box2d_center pc_points
        height_pt label yaw out_feature) := by
  have hcb : ∀ (i j : ℤ) (g : Grid),
      cellBodyChecked t size box2d box2d_center height_pt label yaw i j g
        = some (cellBody t size box2d box2d_center height_pt label yaw i j g) := by
    intro i j g
    unfold cellBodyChecked cellBody
    split_ifs with h1 h2 h3 <;> rfl
  unfold generate_out_feature_checked generate_out_feature
  split_ifs with h1 h2 h3 h4 h5
  any_goals rfl
  apply foldl_bind_some
  intro g1 i hi
  apply foldl_bind_some
  intro g2 j hj
  exact hcb i j g2

/-- C10 witness: with the identity oracle and yaw = 1 the precondition holds
and the checked run of the concrete box returns some of the total run. -/
theorem checked_rasterize_total_of_cos_nonzero_witness :
    idOracle.mcos 1 ≠ 0 ∧
    generate_out_feature_checked idOracle 4 cornersW (box2dOf cornersW)
      (box2dCenterOf (box2dOf cornersW)) ptsW 0 1 1 zeroGrid
    = some (generate_out_feature idOracle 4 cornersW (box2dOf cornersW)
        (box2dCenterOf (box2dOf cornersW)) ptsW 0 1 1 zeroGrid) := by
  have h : idOracle.mcos 1 ≠ 0 := by norm_num [idOracle]
  exact ⟨h, checked_rasterize_total_of_cos_nonzero idOracle 4 cornersW (box2dOf cornersW)
    (box2dCenterOf (box2dOf cornersW)) ptsW 0 1 1 zeroGrid h⟩

/-! Vector algebra for the separating-axis membership test (claim C6). -/

/-- The first test axis of points_in_box: p_x - p1 = corners 4 - corners 0. -/
def boxEdgeI (corners : Fin 8 → Vec3) : Vec3 := sub3 (corners 4) (corners 0)

/-- The second test axis of points_in_box: p_y - p1 = corners 1 - corners 0. -/
def boxEdgeJ (corners : Fin 8 → Vec3) : Vec3 := sub3 (corners 1) (corners 0)

/-- The third test axis of points_in_box: p_z - p1 = corners 3 - corners 0. -/
def boxEdgeK (corners : Fin 8 → Vec3) : Vec3 := sub3 (corners 3) (corners 0)

/-- Centroid of the box spanned at corner 0 by the three test edges. -/
def boxCentroid (corners : Fin 8 → Vec3) : Vec3 :=
  add3 (corners 0)
    (scale3 (1/2) (add3 (boxEdgeI corners) (add3 (boxEdgeJ corners) (boxEdgeK corners))))

def midpoint3 (a b : Vec3) : Vec3 := scale3 (1/2) (add3 a b)

lemma dot3_comm (a b : Vec3) : dot3 a b = dot3 b a := by
  simp only [dot3]
  ring

lemma dot3_add_right (a b c : Vec3) : dot3 a (add3 b c) = dot3 a b + dot3 a c := by
  simp only [dot3, add3]
  ring

lemma dot3_scale_right (r : ℚ) (a b : Vec3) : dot3 a (scale3 r b) = r * dot3 a b := by
  simp only [dot3, scale3]
  ring

lemma sub3_add_cancel (p v : Vec3) : sub3 (add3 p v) p = v := by
  obtain ⟨vx, vy, vz⟩ := v
  simp only [sub3, add3, Vec3.mk.injEq]
  refine ⟨by ring, by ring, by ring⟩

lemma midpoint3_sub3 (p q : Vec3) : sub3 (midpoint3 p q) p = scale3 (1/2) (sub3 q p) := by
  simp only [midpoint3, sub3, add3, scale3, Vec3.mk.injEq]
  refine ⟨by ring, by ring, by ring⟩

lemma sub3_add3_right (q w p : Vec3) : sub3 (add3 q w) p = add3 (sub3 q p) w := by
  simp only [sub3, add3, Vec3.mk.injEq]
  refine ⟨by ring, by ring, by ring⟩

/-- The separating-axis characterization of points_in_box, written with the
three test edges. -/
lemma points_in_box_iff (corners : Fin 8 → Vec3) (pt : Vec3) :
    points_in_box corners pt = true ↔
      ((0 ≤ dot3 (boxEdgeI corners) (sub3 pt (corners 0)) ∧
        dot3 (boxEdgeI corners) (sub3 pt (corners 0)) ≤
          dot3 (boxEdgeI corners) (boxEdgeI corners)) ∧
       (0 ≤ dot3 (boxEdgeJ corners) (sub3 pt (corners 0)) ∧
        dot3 (boxEdgeJ corners) (sub3 pt (corners 0)) ≤
          dot3 (boxEdgeJ corners) (boxEdgeJ corners)) ∧
       (0 ≤ dot3 (boxEdgeK corners) (sub3 pt (corners 0)) ∧
        dot3 (boxEdgeK corners) (sub3 pt (corners 0)) ≤
          dot3 (boxEdgeK corners) (boxEdgeK corners))) := by
  unfold points_in_box boxEdgeI boxEdgeJ boxEdgeK
  rw [decide_eq_true_eq]

/-- C6: for a box whose three test edges (corner4 - corner0, corner1 - corner0,
corner3 - corner0) are mutually orthogonal and of nonzero length, the 3D
membership test accepts the box centroid and the midpoint of corner 0 with
each of the three adjacent test corners, rejects any accepted point translated
along a test edge by more than that edge's length (factor lam > 1), and holds
iff each scalar projection of (point - corner0) onto an edge lies in the
closed interval [0, dot(edge, edge)] (boundaries included, no epsilon). -/
theorem points_in_box_membership (corners : Fin 8 → Vec3)
    (h12 : dot3 (boxEdgeI corners) (boxEdgeJ corners) = 0)
    (h13 : dot3 (boxEdgeI corners) (boxEdgeK corners) = 0)
    (h23 : dot3 (boxEdgeJ corners) (boxEdgeK corners) = 0)
    (hn1 : 0 < dot3 (boxEdgeI corners) (boxEdgeI corners))
    (hn2 : 0 < dot3 (boxEdgeJ corners) (boxEdgeJ corners))
    (hn3 : 0 < dot3 (boxEdgeK corners) (boxEdgeK corners)) :
    points_in_box corners (boxCentroid corners) = true
    ∧ points_in_box corners (midpoint3 (corners 0) (corners 4)) = true
    ∧ points_in_box corners (midpoint3 (corners 0) (corners 1)) = true
    ∧ points_in_box corners (midpoint3 (corners 0) (corners 3)) = true
    ∧ (∀ (pt : Vec3) (lam : ℚ), points_in_box corners pt = true → 1 < lam →
        points_in_box corners (add3 pt (scale3 lam (boxEdgeI corners))) = false
        ∧ points_in_box corners (add3 pt (scale3 lam (boxEdgeJ corners))) = false
        ∧ points_in_box corners (add3 pt (scale3 lam (boxEdgeK corners))) = false)
    ∧ (∀ pt : Vec3, points_in_box corners pt = true ↔
        ((0 ≤ dot3 (boxEdgeI corners) (sub3 pt (corners 0)) ∧
          dot3 (boxEdgeI corners) (sub3 pt (corners 0)) ≤
            dot3 (boxEdgeI corners) (boxEdgeI corners)) ∧
         (0 ≤ dot3 (boxEdgeJ corners) (sub3 pt (corners 0)) ∧
          dot3 (boxEdgeJ corners) (sub3 pt (corners 0)) ≤
            dot3 (boxEdgeJ corners) (boxEdgeJ corners)) ∧
         (0 ≤ dot3 (boxEdgeK corners) (sub3 pt (corners 0)) ∧
          dot3 (boxEdgeK corners) (sub3 pt (corners 0)) ≤
            dot3 (boxEdgeK corners) (boxEdgeK corners)))) := by
  have h21 : dot3 (boxEdgeJ corners) (boxEdgeI corners) = 0 := (dot3_comm _ _).trans h12
  have h31 : dot3 (boxEdgeK corners) (boxEdgeI corners) = 0 := (dot3_comm _ _).trans h13
  have h32 : dot3 (boxEdgeK corners) (boxEdgeJ corners) = 0 := (dot3_comm _ _).trans h23
  have hcent : sub3 (boxCentroid corners) (corners 0)
      = scale3 (1/2) (add3 (boxEdgeI corners) (add3 (boxEdgeJ corners) (boxEdgeK corners))) :=
    sub3_add_cancel _ _
  have hci : dot3 (boxEdgeI corners) (sub3 (boxCentroid corners) (corners 0))
      = 1/2 * dot3 (boxEdgeI corners) (boxEdgeI corners) := by
    rw [hcent, dot3_scale_right, dot3_add_right, dot3_add_right, h12, h13]
    ring
  have hcj : dot3 (boxEdgeJ corners) (sub3 (boxCentroid corners) (corners 0))
      = 1/2 * dot3 (boxEdgeJ corners) (boxEdgeJ corners) := by
    rw [hcent, dot3_scale_right, dot3_add_right, dot3_add_right, h21, h23]
    ring
  have hck : dot3 (boxEdgeK corners) (sub3 (boxCentroid corners) (corners 0))
      = 1/2 * dot3 (boxEdgeK corners) (boxEdgeK corners) := by
    rw [hcent, dot3_scale_right, dot3_add_right, dot3_add_right, h31, h32]
    ring
  have hc : points_in_box corners (boxCentroid corners) = true := by
    rw [points_in_box_iff, hci, hcj, hck]
    exact ⟨⟨by linarith, by linarith⟩, ⟨by linarith, by linarith⟩, by linarith, by linarith⟩
  have hm4 : sub3 (midpoint3 (corners 0) (corners 4)) (corners 0)
      = scale3 (1/2) (boxEdgeI corners) := midpoint3_sub3 _ _
  have hmm4 : points_in_box corners (midpoint3 (corners 0) (corners 4)) = true := by
    rw [points_in_box_iff, hm4, dot3_scale_right, dot3_scale_right, dot3_scale_right,
      h21, h31]
    exact ⟨⟨by linarith, by linarith⟩, ⟨by linarith, by linarith⟩, by linarith, by linarith⟩
  have hm1 : sub3 (midpoint3 (corners 0) (corners 1)) (corners 0)
      = scale3 (1/2) (boxEdgeJ corners) := midpoint3_sub3 _ _
  have hmm1 : points_in_box corners (midpoint3 (corners 0) (corners 1)) = true := by
    rw [points_in_box_iff, hm1, dot3_scale_right, dot3_scale_right, dot3_scale_right,
      h12, h32]
    exact ⟨⟨by linarith, by linarith⟩, ⟨by linarith, by linarith⟩, by linarith, by linarith⟩
  have hm3 : sub3 (midpoint3 (corners 0) (corners 3)) (corners 0)
      = scale3 (1/2) (boxEdgeK corners) := midpoint3_sub3 _ _
  have hmm3 : points_in_box corners (midpoint3 (corners 0) (corners 3)) = true := by
    rw [points_in_box_iff, hm3, dot3_scale_right, dot3_scale_right, dot3_scale_right,
      h13, h23]
    exact ⟨⟨by linarith, by linarith⟩, ⟨by linarith, by linarith⟩, by linarith, by linarith⟩
  refine ⟨hc, hmm4, hmm1, hmm3, ?_, fun pt => points_in_box_iff corners pt⟩
  intro pt lam hpt hlam
  rw [points_in_box_iff] at hpt
  obtain ⟨⟨hi0, hi1⟩, ⟨hj0, hj1⟩, hk0, hk1⟩ := hpt
  refine ⟨?_, ?_, ?_⟩
  · rw [Bool.eq_false_iff]
    intro hq
    rw [points_in_box_iff] at hq
    have hv : sub3 (add3 pt (scale3 lam (boxEdgeI corners))) (corners 0)
        = add3 (sub3 pt (corners 0)) (scale3 lam (boxEdgeI corners)) := sub3_add3_right _ _ _
    have hup := hq.1.2
    rw [hv, dot3_add_right, dot3_scale_right] at hup
    have h4 : 0 < (lam - 1) * dot3 (boxEdgeI corners) (boxEdgeI corners) :=
      mul_pos (by linarith) hn1
    nlinarith
  · rw [Bool.eq_false_iff]
    intro hq
    rw [points_in_box_iff] at hq
    have hv : sub3 (add3 pt (scale3 lam (boxEdgeJ corners))) (corners 0)
        = add3 (sub3 pt (corners 0)) (scale3 lam (boxEdgeJ corners)) := sub3_add3_right _ _ _
    have hup := hq.2.1.2
    rw [hv, dot3_add_right, dot3_scale_right] at hup
    have h4 : 0 < (lam - 1) * dot3 (boxEdgeJ corners) (boxEdgeJ corners) :=
      mul_pos (by linarith) hn2
    nlinarith
  · rw [Bool.eq_false_iff]
    intro hq
    rw [points_in_box_iff] at hq
    have hv : sub3 (add3 pt (scale3 lam (boxEdgeK corners))) (corners 0)
        = add3 (sub3 pt (corners 0)) (scale3 lam (boxEdgeK corners)) := sub3_add3_right _ _ _
    have hup := hq.2.2.2
    rw [hv, dot3_add_right, dot3_scale_right] at hup
    have h4 : 0 < (lam - 1) * dot3 (boxEdgeK corners) (boxEdgeK corners) :=
      mul_pos (by linarith) hn3
    nlinarith

/-- C6 witness: the concrete box has orthogonal nonzero test edges and its
centroid passes the 3D membership test. -/
theorem points_in_box_membership_witness :
    dot3 (boxEdgeI cornersW) (boxEdgeJ cornersW) = 0 ∧
    dot3 (boxEdgeI cornersW) (boxEdgeK cornersW) = 0 ∧
    dot3 (boxEdgeJ cornersW) (boxEdgeK cornersW) = 0 ∧
    0 < dot3 (boxEdgeI cornersW) (boxEdgeI cornersW) ∧
    0 < dot3 (boxEdgeJ cornersW) (boxEdgeJ cornersW) ∧
    0 < dot3 (boxEdgeK cornersW) (boxEdgeK cornersW) ∧
    points_in_box cornersW (boxCentroid cornersW) = true := by
  have h12 : dot3 (boxEdgeI cornersW) (boxEdgeJ cornersW) = 0 := by
    norm_num [boxEdgeI, boxEdgeJ, cornersW, dot3, sub3]
  have h13 : dot3 (boxEdgeI cornersW) (boxEdgeK cornersW) = 0 := by
    norm_num [boxEdgeI, boxEdgeK, cornersW, dot3, sub3]
  have h23 : dot3 (boxEdgeJ cornersW) (boxEdgeK cornersW) = 0 := by
    norm_num [boxEdgeJ, boxEdgeK, cornersW, dot3, sub3]
  have hn1 : 0 < dot3 (boxEdgeI cornersW) (boxEdgeI cornersW) := by
    norm_num [boxEdgeI, cornersW, dot3, sub3]
  have hn2 : 0 < dot3 (boxEdgeJ cornersW) (boxEdgeJ cornersW) := by
    norm_num [boxEdgeJ, cornersW, dot3, sub3]
  have hn3 : 0 < dot3 (boxEdgeK cornersW) (boxEdgeK cornersW) := by
    norm_num [boxEdgeK, cornersW, dot3, sub3]
  exact ⟨h12, h13, h23, hn1, hn2, hn3,
    (points_in_box_membership cornersW h12 h13 h23 hn1 hn2 hn3).1⟩
